import Mathlib

/-!
Verification development for the macOS Core Text font backend interface
(src/src/macfont.h): the glyph layout record data model, the
character-collection glyph resolver, the screen font handle lifecycle, the
metrics provider, and the shaper.  The header only declares the operations;
their implementations live in a file that is not among the sources, so the
operations themselves are modelled from the specification, faithful to its
words, while the data model and the preprocessor-level binding logic are
translated directly from the header.
-/

/-- Range of UTF-16 indices, mirroring CFRange as used by the source header:
a location and a length. -/
structure CFRange where
  location : Nat
  length : Nat
  deriving DecidableEq

/-- Layout information for one shaped glyph, translated from struct
mac_glyph_layout in the source header: the composition range, the UTF-16
string index of the first associated source character, the horizontal and
vertical positional adjustments (baseline_delta negative below the
baseline), the typographical advance, and the glyph id. -/
structure mac_glyph_layout where
  comp_range : CFRange
  string_index : Nat
  advance_delta : ℚ
  baseline_delta : ℚ
  advance : ℚ
  glyph_id : Nat
  deriving DecidableEq

/-- Character collections named in the source header enum: the identity
mapping and Adobe-Japan1. -/
inductive CTCharacterCollection where
  | identityMapping
  | adobeJapan1
  deriving DecidableEq

/-- Modelled from the spec: one segment of a font cmap table, mapping the
contiguous code range from startCode to endCode to consecutive glyph ids
beginning at startGlyph.  The implementation file that reads the actual
cmap data (macfont.m) is not among the sources. -/
structure CmapSegment where
  startCode : Nat
  endCode : Nat
  startGlyph : Nat
  deriving DecidableEq

/-- Modelled from the spec: a Core Text font reference (CTFontRef), reduced
to the data the resolver consults, namely a per-collection cmap table. -/
structure CTFont where
  cmap : CTCharacterCollection → List CmapSegment

/-- Whether a cmap segment covers a collection-specific code. -/
def inSeg (s : CmapSegment) (code : Nat) : Bool :=
  decide (s.startCode ≤ code) && decide (code ≤ s.endCode)

/-- Modelled from the spec: the accelerated native lookup
mac_ctfont_get_glyph_for_cid, whose implementation (macfont.m) is not among
the sources.  The platform locates the cmap segment covering the code and
returns the mapped glyph id, or 0 when no segment covers it. -/
def mac_ctfont_get_glyph_for_cid (font : CTFont) (coll : CTCharacterCollection)
    (code : Nat) : Nat :=
  match (font.cmap coll).find? (fun s => inSeg s code) with
  | some s => s.startGlyph + (code - s.startCode)
  | none => 0

/-- Modelled from the spec: the manual cmap-table walk used by the fallback
resolver on pre-10.10 non-NS builds, whose implementation is not among the
sources.  The table is walked segment by segment until one covers the code. -/
def cmapWalk : List CmapSegment → Nat → Nat
  | [], _ => 0
  | s :: rest, code =>
      if inSeg s code then s.startGlyph + (code - s.startCode)
      else cmapWalk rest code

/-- Modelled from the spec: the separate fallback resolver symbol declared by
the header on older non-NS builds (there named mac_font_get_glyph_for_cid,
distinct from the accelerated symbol). -/
def mac_font_get_glyph_for_cid_compat (font : CTFont)
    (coll : CTCharacterCollection) (code : Nat) : Nat :=
  cmapWalk (font.cmap coll) code

/-- The public resolver entry point.  On platforms whose minimum required
version is at least 10.10 the header binds this name to the accelerated
implementation (line 77 of macfont.h). -/
def mac_font_get_glyph_for_cid : CTFont → CTCharacterCollection → Nat → Nat :=
  mac_ctfont_get_glyph_for_cid

/-- A code has a mapping in a font for a collection when some cmap segment of
that collection covers it. -/
def hasMapping (font : CTFont) (coll : CTCharacterCollection) (code : Nat) : Prop :=
  ∃ s ∈ font.cmap coll, inSeg s code = true

instance (font : CTFont) (coll : CTCharacterCollection) (code : Nat) :
    Decidable (hasMapping font coll code) :=
  inferInstanceAs (Decidable (∃ s ∈ font.cmap coll, inSeg s code = true))

/-- Compile-time configuration constants consulted by the conditional blocks
of the header: the minimum required macOS version and whether the build is
an NS (Cocoa) build. -/
structure BuildConfig where
  minRequired : Nat
  haveNS : Bool
  deriving DecidableEq

/-- How the public resolver name is bound, translated from lines 76 to 83 of
macfont.h: a textual alias of the accelerated implementation, a separately
declared extern symbol, or not declared at all. -/
inductive ResolverBinding where
  | acceleratedAlias
  | separateExtern
  | absent
  deriving DecidableEq

/-- The conditional binding of the public name mac_font_get_glyph_for_cid,
translated from the preprocessor logic at lines 76 to 83 of macfont.h. -/
def macFontGetGlyphForCidBinding (cfg : BuildConfig) : ResolverBinding :=
  if 101000 ≤ cfg.minRequired then ResolverBinding.acceleratedAlias
  else if cfg.haveNS = false then ResolverBinding.separateExtern
  else ResolverBinding.absent

/-- Whether the header declares the separate fallback resolver symbol,
translated from the preprocessor logic at lines 78 to 83 of macfont.h. -/
def fallbackSymbolDeclared (cfg : BuildConfig) : Bool :=
  decide (cfg.minRequired < 101000) && !cfg.haveNS

/-- A demonstration font with a non-trivial Adobe-Japan1 cmap, used by
concrete witnesses. -/
def demoCmapFont : CTFont where
  cmap := fun coll =>
    match coll with
    | CTCharacterCollection.adobeJapan1 => [⟨10, 20, 100⟩, ⟨30, 40, 7⟩]
    | CTCharacterCollection.identityMapping => []

theorem cmapWalk_eq_find (l : List CmapSegment) (code : Nat) :
    cmapWalk l code =
      match l.find? (fun s => inSeg s code) with
      | some s => s.startGlyph + (code - s.startCode)
      | none => 0 := by
  induction l with
  | nil => rfl
  | cons s rest ih =>
      by_cases h : inSeg s code = true
      · simp [cmapWalk, h, List.find?_cons_of_pos]
      · have hf : (s :: rest).find? (fun t => inSeg t code) =
            rest.find? (fun t => inSeg t code) := List.find?_cons_of_neg _ h
        rw [cmapWalk, if_neg h, hf, ih]

/-- C2: the accelerated code path and the manual cmap-walk fallback of the
glyph resolver produce identical glyph ids for every font, collection and
code, and for a code with no mapping both return the sentinel glyph id 0. -/
theorem resolver_paths_agree (font : CTFont) (coll : CTCharacterCollection)
    (code : Nat) :
    mac_font_get_glyph_for_cid_compat font coll code =
      mac_ctfont_get_glyph_for_cid font coll code ∧
    (¬ hasMapping font coll code →
      mac_ctfont_get_glyph_for_cid font coll code = 0 ∧
      mac_font_get_glyph_for_cid_compat font coll code = 0) := by
  have hagree : mac_font_get_glyph_for_cid_compat font coll code =
      mac_ctfont_get_glyph_for_cid font coll code := by
    unfold mac_font_get_glyph_for_cid_compat mac_ctfont_get_glyph_for_cid
    exact cmapWalk_eq_find _ _
  refine ⟨hagree, fun hno => ?_⟩
  have hnone : (font.cmap coll).find? (fun s => inSeg s code) = none := by
    rw [List.find?_eq_none]
    intro s hs hmem
    exact hno ⟨s, hs, hmem⟩
  constructor
  · unfold mac_ctfont_get_glyph_for_cid
    rw [hnone]
  · rw [hagree]
    unfold mac_ctfont_get_glyph_for_cid
    rw [hnone]

/-- Witness for C2 at a concrete font and an unmapped code. -/
theorem resolver_paths_agree_witness :
    ¬ hasMapping demoCmapFont CTCharacterCollection.adobeJapan1 25 ∧
    mac_ctfont_get_glyph_for_cid demoCmapFont CTCharacterCollection.adobeJapan1 25 = 0 ∧
    mac_font_get_glyph_for_cid_compat demoCmapFont CTCharacterCollection.adobeJapan1 25 = 0 :=
  ⟨by decide,
   (resolver_paths_agree demoCmapFont CTCharacterCollection.adobeJapan1 25).2 (by decide)⟩

/-- C5: for a font whose cmap segments all map to nonzero glyph ids, the
public resolver returns the sentinel glyph id 0 exactly when the code has no
mapping, so the missing-glyph condition is signalled only through that
sentinel. -/
theorem resolver_zero_iff_no_mapping (font : CTFont)
    (coll : CTCharacterCollection) (code : Nat)
    (hwf : ∀ s ∈ font.cmap coll, 1 ≤ s.startGlyph) :
    mac_font_get_glyph_for_cid font coll code = 0 ↔
      ¬ hasMapping font coll code := by
  unfold mac_font_get_glyph_for_cid mac_ctfont_get_glyph_for_cid
  cases hfind : (font.cmap coll).find? (fun s => inSeg s code) with
  | none =>
      simp only [true_iff]
      intro hmap
      obtain ⟨s, hs, hcov⟩ := hmap
      rw [List.find?_eq_none] at hfind
      exact hfind s hs hcov
  | some s =>
      have hmem : s ∈ font.cmap coll := List.mem_of_find?_eq_some hfind
      have hcov : inSeg s code = true := by simpa using List.find?_some hfind
      have hpos : 1 ≤ s.startGlyph := hwf s hmem
      change s.startGlyph + (code - s.startCode) = 0 ↔ ¬ hasMapping font coll code
      constructor
      · intro h0
        omega
      · intro hno
        exact absurd ⟨s, hmem, hcov⟩ hno

/-- Witness for C5 at a concrete font: an unmapped code resolves to 0. -/
theorem resolver_zero_iff_no_mapping_witness :
    (∀ s ∈ demoCmapFont.cmap CTCharacterCollection.adobeJapan1, 1 ≤ s.startGlyph) ∧
    mac_font_get_glyph_for_cid demoCmapFont CTCharacterCollection.adobeJapan1 25 = 0 :=
  ⟨by decide,
   (resolver_zero_iff_no_mapping demoCmapFont CTCharacterCollection.adobeJapan1 25
      (by decide)).mpr (by decide)⟩

/-- C10: when the minimum required platform version is at least 10.10 the
public resolver name is bound as an alias of the accelerated implementation,
so the two code paths are one function and agree by definition; the separate
fallback symbol is declared exactly on older non-NS builds. -/
theorem resolver_binding_alias (cfg : BuildConfig)
    (h : 101000 ≤ cfg.minRequired) :
    macFontGetGlyphForCidBinding cfg = ResolverBinding.acceleratedAlias ∧
    mac_font_get_glyph_for_cid = mac_ctfont_get_glyph_for_cid ∧
    (∀ c : BuildConfig,
      fallbackSymbolDeclared c = true ↔ c.minRequired < 101000 ∧ c.haveNS = false) := by
  refine ⟨?_, rfl, ?_⟩
  · unfold macFontGetGlyphForCidBinding
    rw [if_pos h]
  · intro c
    unfold fallbackSymbolDeclared
    cases hns : c.haveNS <;> simp [hns]

/-- Witness for C10 at a concrete modern build configuration. -/
theorem resolver_binding_alias_witness :
    macFontGetGlyphForCidBinding ⟨101300, true⟩ = ResolverBinding.acceleratedAlias ∧
    fallbackSymbolDeclared ⟨101300, true⟩ = false :=
  ⟨(resolver_binding_alias ⟨101300, true⟩ (by decide)).1, by decide⟩

/-- Modelled from the spec: one glyph as enumerated in visual order from a
run by the platform layout engine (an external collaborator whose service
the missing implementation file macfont.m consumes): the run-relative glyph
index mapped back to a UTF-16 string index, the typographic advance, the
horizontal adjustment, the vertical adjustment in engine space (positive
when the glyph sits below the baseline), and the glyph id. -/
structure EngineGlyph where
  stringIndex : Nat
  advance : ℚ
  xAdjust : ℚ
  yAdjustDown : ℚ
  glyphId : Nat
  deriving DecidableEq

/-- Modelled from the spec: an opaque screen font handle (the struct
_EmacsScreenFont behind ScreenFontRef, whose contents are not among the
sources), reduced to the platform services reachable through it: the
line/run layout of a UTF-16 string, the per-glyph advance table (none when
the lookup fails), and the font metrics together with their availability. -/
structure ScreenFont where
  layout : List Nat → List (List EngineGlyph)
  glyphTable : Nat → Option ℚ
  fontAscent : ℚ
  fontDescent : ℚ
  fontLeading : ℚ
  metricsAvailable : Bool

/-- The UTF-16 index one past the cluster of source characters sharing a
cursor position with the character at index i: the smallest glyph string
index of the run that lies beyond i, or the text length when none does. -/
def clusterEnd (textLen : Nat) (bounds : List Nat) (i : Nat) : Nat :=
  (bounds.filter (fun b => decide (i < b))).foldr min textLen

/-- Modelled from the spec: the projection of one engine run into glyph
layout records, computing the composition range by expanding the string
index to the full cluster of source characters sharing its cursor position
and normalizing the vertical adjustment sign so that below the baseline is
negative. -/
def projectRun (textLen : Nat) (run : List EngineGlyph) : List mac_glyph_layout :=
  run.map (fun g =>
    { comp_range := ⟨g.stringIndex,
        clusterEnd textLen (run.map EngineGlyph.stringIndex) g.stringIndex
          - g.stringIndex⟩
      string_index := g.stringIndex
      advance_delta := g.xAdjust
      baseline_delta := -g.yAdjustDown
      advance := g.advance
      glyph_id := g.glyphId })

/-- The concatenated projection of all engine runs of a layout. -/
def shapeRuns (textLen : Nat) : List (List EngineGlyph) → List mac_glyph_layout
  | [] => []
  | run :: rest => projectRun textLen run ++ shapeRuns textLen rest

/-- The full ordered glyph layout record sequence a shaping call derives for
a text with a font. -/
def shapedGlyphs (font : ScreenFont) (text : List Nat) : List mac_glyph_layout :=
  shapeRuns text.length (font.layout text)

/-- The total advance of all engine runs of a layout. -/
def runsWidth : List (List EngineGlyph) → ℚ
  | [] => 0
  | run :: rest => (run.map EngineGlyph.advance).sum + runsWidth rest

/-- Modelled from the spec: the independent whole-string width query, the
typographic width the platform engine reports for the laid-out string. -/
def mac_screen_font_whole_string_width (font : ScreenFont) (text : List Nat) : ℚ :=
  runsWidth (font.layout text)

/-- Outcome discriminant of a shaping call: success with the glyph count
produced, or the buffer-too-small condition carrying the count required. -/
inductive ShapeResult where
  | success (count : Nat)
  | bufferTooSmall (required : Nat)
  deriving DecidableEq

/-- Overwriting the front of the caller's buffer with the produced records. -/
def writeGlyphs (glyphs buf : List mac_glyph_layout) : List mac_glyph_layout :=
  glyphs ++ buf.drop glyphs.length

/-- Modelled from the spec: mac_screen_font_shape, whose implementation
(macfont.m) is not among the sources.  The platform engine lays out the
text; if more glyphs are required than the caller-supplied capacity, the
call fails with the buffer-too-small condition, reports the required count
and leaves the caller's buffer untouched; otherwise the records are written
into the buffer and their count returned.  The engine itself is assumed
available (the engine-unavailable failure mode is outside this model). -/
def mac_screen_font_shape (font : ScreenFont) (text : List Nat)
    (buf : List mac_glyph_layout) (cap : Nat) :
    ShapeResult × List mac_glyph_layout :=
  if cap < (shapedGlyphs font text).length then
    (ShapeResult.bufferTooSmall (shapedGlyphs font text).length, buf)
  else
    (ShapeResult.success (shapedGlyphs font text).length,
      writeGlyphs (shapedGlyphs font text) buf)

/-- Modelled from the spec: mac_screen_font_get_metrics, whose
implementation is not among the sources.  The three output locations are
modelled by passing their prior contents in and returning their final
contents: on failure the prior values come back unchanged. -/
def mac_screen_font_get_metrics (font : ScreenFont)
    (ascent descent leading : ℚ) : Bool × ℚ × ℚ × ℚ :=
  if font.metricsAvailable then
    (true, font.fontAscent, font.fontDescent, font.fontLeading)
  else (false, ascent, descent, leading)

/-- Modelled from the spec: mac_screen_font_get_advance_width_for_glyph,
whose implementation is not among the sources.  A failed lookup yields 0,
through the same plain return value as a successful one. -/
def mac_screen_font_get_advance_width_for_glyph (font : ScreenFont)
    (glyph : Nat) : ℚ :=
  (font.glyphTable glyph).getD 0

/-- Modelled from the spec: the platform font name resolution service that
mac_screen_font_create_with_name consults, mapping a font name (a UTF-16
string) to a size-parametrized font instantiation when the name resolves. -/
structure FontRegistry where
  resolve : List Nat → Option (ℚ → ScreenFont)

/-- Modelled from the spec: mac_screen_font_create_with_name, whose
implementation is not among the sources.  A non-positive size or an
unresolvable name yields no handle; otherwise the resolved font is
instantiated at the requested size. -/
def mac_screen_font_create_with_name (reg : FontRegistry) (name : List Nat)
    (size : ℚ) : Option ScreenFont :=
  if size ≤ 0 then none
  else
    match reg.resolve name with
    | some instantiate => some (instantiate size)
    | none => none

/-- Modelled from the spec: a demonstration font whose engine lays out the
two-code-unit UTF-16 string for the letters f and i as one fi-ligature
glyph with string index 0 and advance 6. -/
def fiFont : ScreenFont where
  layout := fun text =>
    if text = [0x66, 0x69] then [[⟨0, 6, 0, 0, 0xFB01⟩]] else []
  glyphTable := fun _ => none
  fontAscent := 0
  fontDescent := 0
  fontLeading := 0
  metricsAvailable := true

/-- The single glyph layout record the fi ligature shapes into. -/
def fiRec : mac_glyph_layout := ⟨⟨0, 2⟩, 0, 0, 0, 6, 0xFB01⟩

/-- A font whose platform services fail every query. -/
def emptyFont : ScreenFont where
  layout := fun _ => []
  glyphTable := fun _ => none
  fontAscent := 0
  fontDescent := 0
  fontLeading := 0
  metricsAvailable := false

/-- A font in which every glyph exists and carries advance zero. -/
def zeroAdvanceFont : ScreenFont where
  layout := fun _ => []
  glyphTable := fun _ => some 0
  fontAscent := 0
  fontDescent := 0
  fontLeading := 0
  metricsAvailable := true

/-- A padding record filling caller buffers in concrete scenarios. -/
def padRec : mac_glyph_layout := ⟨⟨0, 0⟩, 0, 0, 0, 0, 0⟩

theorem lt_foldr_min (i init : Nat) (l : List Nat) (h : i < init)
    (hl : ∀ b ∈ l, i < b) : i < l.foldr min init := by
  induction l with
  | nil => exact h
  | cons b rest ih =>
      simp only [List.foldr]
      exact lt_min (hl b (List.mem_cons_self b rest))
        (ih (fun x hx => hl x (List.mem_cons_of_mem b hx)))

theorem lt_clusterEnd (textLen : Nat) (bounds : List Nat) (i : Nat)
    (h : i < textLen) : i < clusterEnd textLen bounds i := by
  apply lt_foldr_min _ _ _ h
  intro b hb
  exact of_decide_eq_true (List.mem_filter.mp hb).2

theorem mem_shapeRuns (textLen : Nat) (runs : List (List EngineGlyph))
    (gl : mac_glyph_layout) (h : gl ∈ shapeRuns textLen runs) :
    ∃ run ∈ runs, gl ∈ projectRun textLen run := by
  induction runs with
  | nil => cases h
  | cons run rest ih =>
      rcases List.mem_append.mp h with h1 | h2
      · exact ⟨run, List.mem_cons_self run rest, h1⟩
      · obtain ⟨r, hr, hgl⟩ := ih h2
        exact ⟨r, List.mem_cons_of_mem run hr, hgl⟩

theorem projectRun_map_advance (textLen : Nat) (run : List EngineGlyph) :
    (projectRun textLen run).map mac_glyph_layout.advance =
      run.map EngineGlyph.advance := by
  simp only [projectRun, List.map_map]
  rfl

theorem shapeRuns_advance_sum (textLen : Nat) (runs : List (List EngineGlyph)) :
    ((shapeRuns textLen runs).map mac_glyph_layout.advance).sum = runsWidth runs := by
  induction runs with
  | nil => rfl
  | cons run rest ih =>
      simp only [shapeRuns, runsWidth, List.map_append, List.sum_append, ih,
        projectRun_map_advance]

/-- C1: when the text shapes into more glyphs than the caller-supplied
capacity, the shaping call fails with the buffer-too-small condition,
returns the glyph count actually required, and leaves the caller's output
buffer unchanged: no partial glyph sequence is written. -/
theorem shape_buffer_too_small (font : ScreenFont) (text : List Nat)
    (buf : List mac_glyph_layout) (cap : Nat)
    (h : cap < (shapedGlyphs font text).length) :
    mac_screen_font_shape font text buf cap =
      (ShapeResult.bufferTooSmall (shapedGlyphs font text).length, buf) := by
  unfold mac_screen_font_shape
  rw [if_pos h]

/-- Witness for C1: shaping fi into a zero-capacity buffer. -/
theorem shape_buffer_too_small_witness :
    0 < (shapedGlyphs fiFont [0x66, 0x69]).length ∧
    mac_screen_font_shape fiFont [0x66, 0x69] [] 0 =
      (ShapeResult.bufferTooSmall 1, []) := by
  refine ⟨by decide, ?_⟩
  exact shape_buffer_too_small fiFont [0x66, 0x69] [] 0 (by decide)

/-- C3: when the shaped glyph count is at most the capacity, the shaping
call succeeds with exactly that count, the records written at the front of
the buffer are exactly the shaped records, and the sum of their advance
fields equals the independent whole-string width query, exactly in rational
arithmetic (so within any floating-point tolerance). -/
theorem shape_success_count_and_width (font : ScreenFont) (text : List Nat)
    (buf : List mac_glyph_layout) (cap : Nat)
    (h : (shapedGlyphs font text).length ≤ cap) :
    mac_screen_font_shape font text buf cap =
      (ShapeResult.success (shapedGlyphs font text).length,
        writeGlyphs (shapedGlyphs font text) buf) ∧
    (writeGlyphs (shapedGlyphs font text) buf).take (shapedGlyphs font text).length
      = shapedGlyphs font text ∧
    ((shapedGlyphs font text).map mac_glyph_layout.advance).sum
      = mac_screen_font_whole_string_width font text := by
  refine ⟨?_, ?_, ?_⟩
  · unfold mac_screen_font_shape
    rw [if_neg (Nat.not_lt.mpr h)]
  · unfold writeGlyphs
    exact List.take_left _ _
  · exact shapeRuns_advance_sum text.length (font.layout text)

/-- Witness for C3: shaping fi into a capacity-one buffer. -/
theorem shape_success_count_and_width_witness :
    (shapedGlyphs fiFont [0x66, 0x69]).length ≤ 1 ∧
    mac_screen_font_shape fiFont [0x66, 0x69] [padRec] 1 =
      (ShapeResult.success 1, [fiRec]) ∧
    ((shapedGlyphs fiFont [0x66, 0x69]).map mac_glyph_layout.advance).sum
      = mac_screen_font_whole_string_width fiFont [0x66, 0x69] := by
  refine ⟨by decide, ?_,
    (shape_success_count_and_width fiFont [0x66, 0x69] [padRec] 1 (by decide)).2.2⟩
  exact ((shape_success_count_and_width fiFont [0x66, 0x69] [padRec] 1
    (by decide)).1).trans (by decide)

/-- C4: every glyph layout record produced by a shaping call locates its
primary source-character index inside its composition range, provided the
engine reports string indices within the text. -/
theorem shape_string_index_in_comp_range (font : ScreenFont) (text : List Nat)
    (hwf : ∀ run ∈ font.layout text, ∀ g ∈ run, g.stringIndex < text.length) :
    ∀ gl ∈ shapedGlyphs font text,
      gl.comp_range.location ≤ gl.string_index ∧
      gl.string_index < gl.comp_range.location + gl.comp_range.length := by
  intro gl hgl
  obtain ⟨run, hrun, hmem⟩ := mem_shapeRuns text.length (font.layout text) gl hgl
  rw [projectRun, List.mem_map] at hmem
  obtain ⟨g, hg, hEq⟩ := hmem
  subst hEq
  have hlt : g.stringIndex < text.length := hwf run hrun g hg
  have hend := lt_clusterEnd text.length (run.map EngineGlyph.stringIndex)
    g.stringIndex hlt
  refine ⟨Nat.le_refl _, ?_⟩
  show g.stringIndex < g.stringIndex +
    (clusterEnd text.length (run.map EngineGlyph.stringIndex) g.stringIndex
      - g.stringIndex)
  omega

/-- Witness for C4 at the fi ligature record. -/
theorem shape_string_index_in_comp_range_witness :
    (∀ run ∈ fiFont.layout [0x66, 0x69], ∀ g ∈ run,
      g.stringIndex < ([0x66, 0x69] : List Nat).length) ∧
    (fiRec.comp_range.location ≤ fiRec.string_index ∧
      fiRec.string_index < fiRec.comp_range.location + fiRec.comp_range.length) :=
  ⟨by decide,
   shape_string_index_in_comp_range fiFont [0x66, 0x69] (by decide) fiRec (by decide)⟩

/-- C6: shaping the two-code-unit UTF-16 string fi with a font containing an
fi-ligature glyph yields exactly one glyph layout record, whose composition
range has location 0 and length 2 and whose string index is 0. -/
theorem shape_fi_ligature :
    mac_screen_font_shape fiFont [0x66, 0x69] [padRec] 1 =
      (ShapeResult.success 1, [fiRec]) ∧
    fiRec.comp_range = ⟨0, 2⟩ ∧ fiRec.string_index = 0 := by
  decide

/-- C7: the metrics query returns a success flag, and whenever it reports
failure the three output locations keep their prior values unchanged. -/
theorem get_metrics_failure_preserves_outputs (font : ScreenFont)
    (ascent descent leading : ℚ)
    (h : (mac_screen_font_get_metrics font ascent descent leading).1 = false) :
    mac_screen_font_get_metrics font ascent descent leading =
      (false, ascent, descent, leading) := by
  by_cases hm : font.metricsAvailable = true
  · exfalso
    rw [mac_screen_font_get_metrics, if_pos hm] at h
    simp at h
  · rw [mac_screen_font_get_metrics, if_neg hm]

/-- Witness for C7 at a font without available metrics. -/
theorem get_metrics_failure_witness :
    (mac_screen_font_get_metrics emptyFont 1 2 3).1 = false ∧
    mac_screen_font_get_metrics emptyFont 1 2 3 = (false, 1, 2, 3) :=
  ⟨by decide, get_metrics_failure_preserves_outputs emptyFont 1 2 3 (by decide)⟩

/-- C8: font creation returns a handle exactly when the point size is
positive and the name resolves; a non-positive size or an unresolvable name
yields a null (absent) handle. -/
theorem create_with_name_some_iff (reg : FontRegistry) (name : List Nat)
    (size : ℚ) :
    (mac_screen_font_create_with_name reg name size).isSome = true ↔
      0 < size ∧ (reg.resolve name).isSome = true := by
  unfold mac_screen_font_create_with_name
  by_cases hs : size ≤ 0
  · rw [if_pos hs]
    simp [not_lt.mpr hs]
  · rw [if_neg hs]
    cases hr : reg.resolve name with
    | none => simp
    | some f => simp [not_le.mp hs]

/-- C9: the per-glyph advance query signals a failed lookup only through the
value 0, which is not distinguishable through this interface from a glyph
that exists with advance zero. -/
theorem advance_width_no_failure_signal :
    (∀ (font : ScreenFont) (glyph : Nat), font.glyphTable glyph = none →
      mac_screen_font_get_advance_width_for_glyph font glyph = 0) ∧
    zeroAdvanceFont.glyphTable 5 = some 0 ∧
    emptyFont.glyphTable 5 = none ∧
    mac_screen_font_get_advance_width_for_glyph zeroAdvanceFont 5 =
      mac_screen_font_get_advance_width_for_glyph emptyFont 5 := by
  refine ⟨?_, rfl, rfl, rfl⟩
  intro font glyph h
  unfold mac_screen_font_get_advance_width_for_glyph
  rw [h]
  rfl

/-- Witness for C9: a failed lookup returns 0. -/
theorem advance_width_no_failure_signal_witness :
    mac_screen_font_get_advance_width_for_glyph emptyFont 5 = 0 :=
  advance_width_no_failure_signal.1 emptyFont 5 rfl
